import Mathlib

/-
Verification of the contour-hierarchy-to-closed-curve reconstruction core of
the Image-2d-to-model repository, a shallow embedding of
src/src/model_from_contours.py (function build_model_from_contours and its
nested helpers touches_border and add_bezier_spline).

Modelling choices:
- pixel coordinates and dimensions are Int, as in the JSON input;
- world coordinates are exact rationals (the Python code uses float division
  x / (width - 1); we model the arithmetic exactly);
- Python's ZeroDivisionError (possible when width = 1 or height = 1) is
  modelled with Except Unit: an uncaught exception aborts the whole build;
- the Blender curve object that the code mutates is modelled as the list of
  splines created, in creation order; a call of add_bezier_spline that
  returns without creating a spline contributes none.
-/

deriving instance DecidableEq for Except

/-- One contour record of the input JSON: its point list and its parent
index (-1 meaning no parent). -/
structure Contour where
  points : List (Int × Int)
  parent : Int
deriving DecidableEq

/-- The whole contour file: image dimensions plus the contour list. -/
structure ContourSet where
  width : Int
  height : Int
  contours : List Contour
deriving DecidableEq

/-- One closed spline created by add_bezier_spline: world-space points plus
the cyclic flag (use_cyclic_u). -/
structure Spline where
  points : List (ℚ × ℚ)
  cyclic : Bool
deriving DecidableEq

/-- Run an Except-valued function over a list, left to right, aborting at
the first error — the pure rendering of a Python for-loop whose body may
raise. -/
def mapExcept {α β : Type} (f : α → Except Unit β) : List α → Except Unit (List β)
  | [] => .ok []
  | x :: xs =>
    match f x with
    | .error e => .error e
    | .ok y =>
      match mapExcept f xs with
      | .error e => .error e
      | .ok ys => .ok (y :: ys)

/-- Embedding of touches_border: true if any point is within margin of the
image border. -/
def touches_border (cnt : Contour) (w h margin : Int) : Bool :=
  cnt.points.any fun p =>
    decide (p.1 ≤ margin) || decide (p.2 ≤ margin) ||
    decide (p.1 ≥ w - margin) || decide (p.2 ≥ h - margin)

/-- Embedding of the top_indices list comprehension: indices of contours
with parent -1 that do not touch the border (the code passes the default
margin 2; we keep margin as a parameter). -/
def topIndices (cs : ContourSet) (margin : Int) : List Nat :=
  ((cs.contours.enum.filter fun p =>
      p.2.parent == -1 && !(touches_border p.2 cs.width cs.height margin))).map Prod.fst

/-- Elements of a list at positions 0, k, 2k, …: Python's l[::k] for k ≥ 1. -/
def everyNth {α : Type} (k : Nat) (l : List α) : List α :=
  (l.enum.filter fun p => p.1 % k == 0).map Prod.snd

/-- Embedding of the subsampling in add_bezier_spline: the slice
points[::step] is taken only when step > 1. -/
def subsample {α : Type} (step : Int) (l : List α) : List α :=
  if 1 < step then everyNth step.toNat l else l

/-- Embedding of the per-point normalization in add_bezier_spline's loop:
u = x/(width-1), v = y/(height-1), world point ((u-0.5)*scale, (0.5-v)*scale).
Division by zero (width = 1 or height = 1) raises, as in Python. -/
def normalizePoint (width height : Int) (scale : ℚ) (p : Int × Int) : Except Unit (ℚ × ℚ) :=
  if width - 1 = 0 then .error ()
  else if height - 1 = 0 then .error ()
  else
    let u : ℚ := (p.1 : ℚ) / ((width - 1 : Int) : ℚ)
    let v : ℚ := (p.2 : ℚ) / ((height - 1 : Int) : ℚ)
    .ok ((u - 1/2) * scale, (1/2 - v) * scale)

/-- The successful value of normalizePoint, as a total function (same body
with the error guards removed); used to state what the code computes. -/
def pointWorld (width height : Int) (scale : ℚ) (p : Int × Int) : ℚ × ℚ :=
  let u : ℚ := (p.1 : ℚ) / ((width - 1 : Int) : ℚ)
  let v : ℚ := (p.2 : ℚ) / ((height - 1 : Int) : ℚ)
  ((u - 1/2) * scale, (1/2 - v) * scale)

/-- Embedding of add_bezier_spline: reverse if asked, subsample, drop the
contour when fewer than 3 points remain, otherwise normalize every point
and create a cyclic spline. -/
def add_bezier_spline (width height : Int) (scale : ℚ)
    (points : List (Int × Int)) (reverse : Bool) (step : Int) :
    Except Unit (Option Spline) :=
  let pts1 := if reverse then points.reverse else points
  let pts2 := subsample step pts1
  if pts2.length < 3 then .ok none
  else
    match mapExcept (normalizePoint width height scale) pts2 with
    | .error e => .error e
    | .ok ws => .ok (some { points := ws, cyclic := true })

/-- Placeholder contour for out-of-range list access (top indices always
come from enumerate, so this default is never read). -/
def defaultContour : Contour := { points := [], parent := -1 }

/-- The contour at index i of the set. -/
def contourAt (cs : ContourSet) (i : Nat) : Contour :=
  cs.contours.getD i defaultContour

/-- Embedding of the inner loop's selection: all contours whose parent field
equals i, in original order. -/
def childrenOf (cs : ContourSet) (i : Nat) : List Contour :=
  cs.contours.filter fun c => c.parent == (i : Int)

/-- One iteration of the outer loop of build_model_from_contours: the outer
contour's spline attempt followed by the spline attempts of every contour
whose parent is i. -/
def buildGroup (cs : ContourSet) (scale : ℚ) (step : Int) (i : Nat) :
    Except Unit (List (Option Spline)) :=
  match add_bezier_spline cs.width cs.height scale (contourAt cs i).points false step with
  | .error e => .error e
  | .ok outer =>
    match mapExcept
        (fun c => add_bezier_spline cs.width cs.height scale c.points true step)
        (childrenOf cs i) with
    | .error e => .error e
    | .ok holes => .ok (outer :: holes)

/-- Embedding of the curve-building part of build_model_from_contours: the
splines accumulated in curve_data over the two nested loops, in creation
order (margin 2 as in the source, scale and bezier_step as parameters). -/
def build_model_from_contours (cs : ContourSet) (scale : ℚ) (step : Int) :
    Except Unit (List Spline) :=
  match mapExcept (buildGroup cs scale step) (topIndices cs 2) with
  | .error e => .error e
  | .ok groups => .ok (groups.flatten.filterMap id)

/-- Job list written from the spec's words (section 4.4): for each eligible
top-level index, in original order, the outer contour's points with
reverse = false, then, for every contour whose parent equals that index, in
original order, that contour's points with reverse = true. -/
def assemblyJobs (cs : ContourSet) (margin : Int) : List (List (Int × Int) × Bool) :=
  ((topIndices cs margin).map fun i =>
    ((contourAt cs i).points, false) ::
      (childrenOf cs i).map fun c => (c.points, true)).flatten

/-- Hierarchy Assembler as the spec words it: run the Curve Builder over
the job list and collect the successfully built curves in order. -/
def hierarchyAssemblerSpec (cs : ContourSet) (scale : ℚ) (step : Int) :
    Except Unit (List Spline) :=
  match mapExcept
      (fun jb => add_bezier_spline cs.width cs.height scale jb.1 jb.2 step)
      (assemblyJobs cs 2) with
  | .error e => .error e
  | .ok opts => .ok (opts.filterMap id)

/-- Scenario A square of the spec: corners on the margin boundary. -/
def contourA : Contour := { points := [(2,2),(2,7),(7,7),(7,2)], parent := -1 }

/-- Scenario A contour set: 10 by 10 image, one top-level square. -/
def csA : ContourSet := { width := 10, height := 10, contours := [contourA] }

/-- An interior top-level square on a 10 by 10 image (used in witnesses). -/
def csInterior : ContourSet :=
  { width := 10, height := 10
    contours := [{ points := [(3,3),(3,6),(6,6),(6,3)], parent := -1 }] }

/-- Input with a malformed hierarchy: contour 0 declares parent 7 although
only indices 0 and 1 exist; contour 1 is an eligible top-level contour. -/
def csBadParent : ContourSet :=
  { width := 10, height := 10
    contours := [{ points := [(3,3),(3,6),(6,6)], parent := 7 },
                 { points := [(4,4),(4,5),(5,5)], parent := -1 }] }

/-- Six distinct points used to separate reverse-then-subsample from
subsample-then-reverse at step 2. -/
def ptsC3 : List (Int × Int) := [(3,3),(3,4),(3,5),(4,5),(5,5),(5,4)]

/-- A top-level square far enough from the border to survive margin 3. -/
def csMargin : ContourSet :=
  { width := 10, height := 10
    contours := [{ points := [(4,4),(4,6),(6,6)], parent := -1 }] }

/-- mapExcept over an appended list runs the two halves in order, aborting
at the first error. -/
theorem mapExcept_append {α β : Type} (f : α → Except Unit β) (l₁ l₂ : List α) :
    mapExcept f (l₁ ++ l₂) =
      match mapExcept f l₁ with
      | .error e => .error e
      | .ok ys =>
        match mapExcept f l₂ with
        | .error e => .error e
        | .ok zs => .ok (ys ++ zs) := by
  induction l₁ with
  | nil => cases h : mapExcept f l₂ <;> simp [mapExcept, h]
  | cons x xs ih =>
    cases hx : f x with
    | error e => simp [mapExcept, hx]
    | ok y =>
      cases hxs : mapExcept f xs with
      | error e => simp [mapExcept, hx, hxs, ih]
      | ok ys => cases h2 : mapExcept f l₂ <;> simp [mapExcept, hx, hxs, h2, ih]

/-- mapExcept over a mapped list fuses the map into the function. -/
theorem mapExcept_map {α β γ : Type} (f : β → Except Unit γ) (g : α → β) (l : List α) :
    mapExcept f (l.map g) = mapExcept (fun a => f (g a)) l := by
  induction l with
  | nil => rfl
  | cons x xs ih => simp [mapExcept, ih]

/-- A successful mapExcept returns one output per input. -/
theorem mapExcept_length {α β : Type} (f : α → Except Unit β) :
    ∀ (l : List α) (ys : List β), mapExcept f l = .ok ys → ys.length = l.length := by
  intro l
  induction l with
  | nil =>
    intro ys h
    simp only [mapExcept] at h
    rw [← Except.ok.inj h]
    rfl
  | cons x xs ih =>
    intro ys h
    cases hx : f x with
    | error e => simp [mapExcept, hx] at h
    | ok y =>
      cases hxs : mapExcept f xs with
      | error e => simp [mapExcept, hx, hxs] at h
      | ok zs =>
        simp only [mapExcept, hx, hxs] at h
        rw [← Except.ok.inj h]
        simp [ih zs hxs]

/-- If no element makes f raise, mapExcept does not raise. -/
theorem mapExcept_ne_error {α β : Type} (f : α → Except Unit β) (l : List α)
    (h : ∀ x ∈ l, f x ≠ .error ()) : mapExcept f l ≠ .error () := by
  induction l with
  | nil => simp [mapExcept]
  | cons x xs ih =>
    cases hx : f x with
    | error e => cases e; exact absurd hx (h x (by simp))
    | ok y =>
      cases hxs : mapExcept f xs with
      | error e => cases e; exact absurd hxs (ih fun z hz => h z (by simp [hz]))
      | ok ys => simp [mapExcept, hx, hxs]

/-- Two pointwise-equal functions give the same mapExcept. -/
theorem mapExcept_congr {α β : Type} (f g : α → Except Unit β) (l : List α)
    (h : ∀ x ∈ l, f x = g x) : mapExcept f l = mapExcept g l := by
  induction l with
  | nil => rfl
  | cons x xs ih => simp [mapExcept, h x (by simp), ih fun z hz => h z (by simp [hz])]

/-- An Except Unit value that is not the error is some ok value. -/
theorem exists_ok_of_ne_error {β : Type} {x : Except Unit β} (h : x ≠ .error ()) :
    ∃ v, x = .ok v := by
  cases x with
  | error e => cases e; exact absurd rfl h
  | ok v => exact ⟨v, rfl⟩

/-- When the image is wider and taller than one pixel, normalization
succeeds and computes pointWorld. -/
theorem normalizePoint_ok (w h : Int) (s : ℚ) (hw : w - 1 ≠ 0) (hh : h - 1 ≠ 0)
    (p : Int × Int) : normalizePoint w h s p = .ok (pointWorld w h s p) := by
  simp [normalizePoint, pointWorld, hw, hh]

/-- Normalizing a whole point list succeeds pointwise under the same
conditions. -/
theorem mapExcept_normalize_ok (w h : Int) (s : ℚ) (hw : w - 1 ≠ 0) (hh : h - 1 ≠ 0)
    (l : List (Int × Int)) :
    mapExcept (normalizePoint w h s) l = .ok (l.map (pointWorld w h s)) := by
  induction l with
  | nil => rfl
  | cons p l ih => simp [mapExcept, normalizePoint_ok w h s hw hh, ih]

/-- Conversely, any successful normalization run is the pointWorld map. -/
theorem mapExcept_normalize_inv (w h : Int) (s : ℚ) :
    ∀ (l : List (Int × Int)) (ws : List (ℚ × ℚ)),
      mapExcept (normalizePoint w h s) l = .ok ws → ws = l.map (pointWorld w h s) := by
  intro l
  induction l with
  | nil =>
    intro ws hws
    simp only [mapExcept] at hws
    rw [← Except.ok.inj hws]
    rfl
  | cons p l ih =>
    intro ws hws
    by_cases hw : w - 1 = 0
    · simp [mapExcept, normalizePoint, hw] at hws
    by_cases hh : h - 1 = 0
    · simp [mapExcept, normalizePoint, hw, hh] at hws
    rw [mapExcept_normalize_ok w h s hw hh] at hws
    rw [← Except.ok.inj hws]

/-- With at least 3 points after subsampling and a non-degenerate image,
add_bezier_spline creates the cyclic spline of normalized points. -/
theorem add_bezier_spline_ok (w h : Int) (s : ℚ) (pts : List (Int × Int))
    (rev : Bool) (step : Int) (hw : w - 1 ≠ 0) (hh : h - 1 ≠ 0)
    (hlen : 3 ≤ (subsample step (if rev then pts.reverse else pts)).length) :
    add_bezier_spline w h s pts rev step =
      .ok (some ⟨(subsample step (if rev then pts.reverse else pts)).map
          (pointWorld w h s), true⟩) := by
  simp only [add_bezier_spline]
  rw [if_neg (by omega : ¬ (subsample step (if rev then pts.reverse else pts)).length < 3)]
  rw [mapExcept_normalize_ok w h s hw hh]

/-- With fewer than 3 points after subsampling, add_bezier_spline creates
nothing and raises nothing. -/
theorem add_bezier_spline_short (w h : Int) (s : ℚ) (pts : List (Int × Int))
    (rev : Bool) (step : Int)
    (hlen : (subsample step (if rev then pts.reverse else pts)).length < 3) :
    add_bezier_spline w h s pts rev step = .ok none := by
  simp only [add_bezier_spline]
  rw [if_pos hlen]

/-- Inversion: any spline that add_bezier_spline actually creates comes
from at least 3 subsampled points, carries their normalized images in
order, and is cyclic. -/
theorem add_bezier_spline_ok_some_inv (w h : Int) (s : ℚ) (pts : List (Int × Int))
    (rev : Bool) (step : Int) (spl : Spline)
    (hadd : add_bezier_spline w h s pts rev step = .ok (some spl)) :
    3 ≤ (subsample step (if rev then pts.reverse else pts)).length ∧
    spl.points = (subsample step (if rev then pts.reverse else pts)).map (pointWorld w h s) ∧
    spl.cyclic = true := by
  simp only [add_bezier_spline] at hadd
  by_cases hlen : (subsample step (if rev then pts.reverse else pts)).length < 3
  · rw [if_pos hlen] at hadd
    exact absurd (Except.ok.inj hadd) (by simp)
  · rw [if_neg hlen] at hadd
    cases hm : mapExcept (normalizePoint w h s)
        (subsample step (if rev then pts.reverse else pts)) with
    | error e => rw [hm] at hadd; exact absurd hadd (by simp)
    | ok ws =>
      rw [hm] at hadd
      have hspl := Option.some.inj (Except.ok.inj hadd)
      refine ⟨by omega, ?_, ?_⟩ <;> rw [← hspl]
      exact mapExcept_normalize_inv w h s _ ws hm

/-- On a non-degenerate image, add_bezier_spline never raises. -/
theorem add_bezier_spline_ne_error (w h : Int) (s : ℚ) (pts : List (Int × Int))
    (rev : Bool) (step : Int) (hw : w - 1 ≠ 0) (hh : h - 1 ≠ 0) :
    add_bezier_spline w h s pts rev step ≠ .error () := by
  by_cases hlen : (subsample step (if rev then pts.reverse else pts)).length < 3
  · rw [add_bezier_spline_short w h s pts rev step hlen]
    simp
  · rw [add_bezier_spline_ok w h s pts rev step hw hh (by omega)]
    simp

/-- On a non-degenerate image, one outer-loop iteration never raises. -/
theorem buildGroup_ne_error (cs : ContourSet) (s : ℚ) (step : Int) (i : Nat)
    (hw : cs.width - 1 ≠ 0) (hh : cs.height - 1 ≠ 0) :
    buildGroup cs s step i ≠ .error () := by
  rw [buildGroup]
  obtain ⟨o, ho⟩ := exists_ok_of_ne_error
    (add_bezier_spline_ne_error cs.width cs.height s (contourAt cs i).points false step hw hh)
  rw [ho]
  obtain ⟨hs, hhs⟩ := exists_ok_of_ne_error
    (mapExcept_ne_error _ (childrenOf cs i)
      (fun c _ => add_bezier_spline_ne_error cs.width cs.height s c.points true step hw hh))
  rw [hhs]
  simp

/-- On a non-degenerate image, the whole build never raises, whatever the
parent fields contain. -/
theorem build_ne_error (cs : ContourSet) (s : ℚ) (step : Int)
    (hw : cs.width - 1 ≠ 0) (hh : cs.height - 1 ≠ 0) :
    build_model_from_contours cs s step ≠ .error () := by
  rw [build_model_from_contours]
  obtain ⟨gs, hgs⟩ := exists_ok_of_ne_error
    (mapExcept_ne_error _ (topIndices cs 2)
      (fun i _ => buildGroup_ne_error cs s step i hw hh))
  rw [hgs]
  simp

/-- Steps at most 1 leave the point list untouched. -/
theorem subsample_of_step_le_one {α : Type} (step : Int) (l : List α) (h : step ≤ 1) :
    subsample step l = l := by
  rw [subsample, if_neg (by omega)]

/-- The Curve Builder treats any step at most 1 exactly like step 1. -/
theorem add_bezier_spline_step_le_one (w h : Int) (s : ℚ) (pts : List (Int × Int))
    (rev : Bool) (step : Int) (hst : step ≤ 1) :
    add_bezier_spline w h s pts rev step = add_bezier_spline w h s pts rev 1 := by
  simp only [add_bezier_spline,
    subsample_of_step_le_one step (if rev then pts.reverse else pts) hst,
    subsample_of_step_le_one 1 (if rev then pts.reverse else pts) (by omega)]

/-- One outer-loop iteration treats any step at most 1 like step 1. -/
theorem buildGroup_step_le_one (cs : ContourSet) (s : ℚ) (step : Int) (i : Nat)
    (hst : step ≤ 1) : buildGroup cs s step i = buildGroup cs s 1 i := by
  rw [buildGroup, buildGroup,
    add_bezier_spline_step_le_one cs.width cs.height s (contourAt cs i).points false step hst,
    mapExcept_congr _ _ (childrenOf cs i)
      (fun c _ => add_bezier_spline_step_le_one cs.width cs.height s c.points true step hst)]

/-- The whole build treats any step at most 1 like step 1. -/
theorem build_step_le_one (cs : ContourSet) (s : ℚ) (step : Int) (hst : step ≤ 1) :
    build_model_from_contours cs s step = build_model_from_contours cs s 1 := by
  rw [build_model_from_contours, build_model_from_contours,
    mapExcept_congr _ _ (topIndices cs 2)
      (fun i _ => buildGroup_step_le_one cs s step i hst)]

/-- Running the Curve Builder over one spec job row (outer job then the
hole jobs of index i) is exactly one iteration of the source's outer loop. -/
theorem mapExcept_jobRow (cs : ContourSet) (s : ℚ) (step : Int) (i : Nat) :
    mapExcept (fun jb => add_bezier_spline cs.width cs.height s jb.1 jb.2 step)
      (((contourAt cs i).points, false) ::
        (childrenOf cs i).map fun c => (c.points, true)) =
    buildGroup cs s step i := by
  rw [buildGroup]
  cases ho : add_bezier_spline cs.width cs.height s (contourAt cs i).points false step with
  | error e => simp [mapExcept, ho]
  | ok o =>
    cases hm : mapExcept
        (fun c => add_bezier_spline cs.width cs.height s c.points true step)
        (childrenOf cs i) with
    | error e => simp [mapExcept, ho, mapExcept_map, hm]
    | ok hs => simp [mapExcept, ho, mapExcept_map, hm]

/-- Running the Curve Builder over the flattened job rows of any index list
equals running the source's outer loop over that list and flattening. -/
theorem mapExcept_jobs (cs : ContourSet) (s : ℚ) (step : Int) :
    ∀ tis : List Nat,
      mapExcept (fun jb => add_bezier_spline cs.width cs.height s jb.1 jb.2 step)
        ((tis.map fun i =>
          ((contourAt cs i).points, false) ::
            (childrenOf cs i).map fun c => (c.points, true)).flatten) =
      match mapExcept (buildGroup cs s step) tis with
      | .error e => .error e
      | .ok gs => .ok gs.flatten := by
  intro tis
  induction tis with
  | nil => rfl
  | cons i tis ih =>
    rw [List.map_cons, List.flatten_cons, mapExcept_append, mapExcept_jobRow, ih]
    cases hbg : buildGroup cs s step i with
    | error e => simp [mapExcept, hbg]
    | ok g =>
      cases hrest : mapExcept (buildGroup cs s step) tis with
      | error e => simp [mapExcept, hbg, hrest]
      | ok gs => simp [mapExcept, hbg, hrest]

/-- Growing the margin can only turn more points into border points. -/
theorem touches_border_mono (c : Contour) (w h m₁ m₂ : Int) (hm : m₁ ≤ m₂)
    (ht : touches_border c w h m₁ = true) : touches_border c w h m₂ = true := by
  simp only [touches_border, List.any_eq_true, Bool.or_eq_true, decide_eq_true_eq] at ht ⊢
  obtain ⟨p, hp, hcond⟩ := ht
  exact ⟨p, hp, by omega⟩

/-- C1: the Hierarchy Assembler emits curves exactly for the eligible
top-level contours (parent -1 and not touching the border) and their direct
children, in the spec's order: for each eligible index, in original order,
the outer contour with reverse false, then every contour whose parent
equals that index, in original order, with reverse true; no other contour
contributes, so a border-excluded top-level contour also excludes its
holes. Stated as equality of the source embedding with the job-list
rendering of the spec's algorithm. -/
theorem C1_assembler_emits_eligible_and_children (cs : ContourSet) (s : ℚ) (step : Int) :
    build_model_from_contours cs s step = hierarchyAssemblerSpec cs s step := by
  rw [build_model_from_contours, hierarchyAssemblerSpec, assemblyJobs, mapExcept_jobs]
  cases hx : mapExcept (buildGroup cs s step) (topIndices cs 2) with
  | error e => rfl
  | ok gs => rfl

/-- C2: touches_border is true exactly when some point is within the
margin of a border, and in Scenario A (the 10 by 10 set whose top-level
square has corners on the margin boundary) the contour touches the border
and the resulting curve group is empty. -/
theorem C2_touches_border_iff :
    (∀ (c : Contour) (w h m : Int),
      touches_border c w h m = true ↔
        ∃ p ∈ c.points, p.1 ≤ m ∨ p.2 ≤ m ∨ p.1 ≥ w - m ∨ p.2 ≥ h - m) ∧
    touches_border contourA 10 10 2 = true ∧
    build_model_from_contours csA 2 1 = .ok [] := by
  refine ⟨?_, by decide, by decide⟩
  intro c w h m
  simp only [touches_border, List.any_eq_true, Bool.or_eq_true, decide_eq_true_eq]
  constructor
  · rintro ⟨p, hp, hc⟩
    exact ⟨p, hp, by tauto⟩
  · rintro ⟨p, hp, hc⟩
    exact ⟨p, hp, by tauto⟩

/-- C8: border-filter monotonicity: with a larger margin the eligible
top-level index list only shrinks (as a set). -/
theorem C8_border_filter_monotone (cs : ContourSet) (m₁ m₂ : Int) (i : Nat)
    (hm : m₁ ≤ m₂) (hi : i ∈ topIndices cs m₂) : i ∈ topIndices cs m₁ := by
  simp only [topIndices, List.mem_map, List.mem_filter] at hi ⊢
  obtain ⟨⟨j, c⟩, ⟨hmem, hpred⟩, hfst⟩ := hi
  rw [Bool.and_eq_true] at hpred
  cases htm : touches_border c cs.width cs.height m₁ with
  | false =>
    refine ⟨(j, c), ⟨hmem, ?_⟩, hfst⟩
    rw [Bool.and_eq_true]
    exact ⟨hpred.1, by simp [htm]⟩
  | true =>
    have h2 := touches_border_mono c cs.width cs.height m₁ m₂ hm htm
    rw [h2] at hpred
    simp at hpred

/-- C8 witness: at margins 2 and 3 on a concrete interior square, index 0
is eligible at margin 3 and hence also at margin 2. -/
theorem C8_witness :
    (2 : Int) ≤ 3 ∧ 0 ∈ topIndices csMargin 3 ∧ 0 ∈ topIndices csMargin 2 :=
  ⟨by decide, by decide, C8_border_filter_monotone csMargin 2 3 0 (by decide) (by decide)⟩

/-- C9: the build is a pure function of the contour set and configuration:
equal inputs give bit-identical curve groups. -/
theorem C9_deterministic (cs₁ cs₂ : ContourSet) (s₁ s₂ : ℚ) (st₁ st₂ : Int)
    (hcs : cs₁ = cs₂) (hs : s₁ = s₂) (hst : st₁ = st₂) :
    build_model_from_contours cs₁ s₁ st₁ = build_model_from_contours cs₂ s₂ st₂ := by
  rw [hcs, hs, hst]

/-- C9 witness: two runs on the same concrete input agree. -/
theorem C9_witness :
    csA = csA ∧
    build_model_from_contours csA 2 1 = build_model_from_contours csA 2 1 :=
  ⟨rfl, C9_deterministic csA csA 2 2 1 1 rfl rfl rfl⟩

/-- C10: any step at most 1 (including 0 and negative steps) performs no
subsampling and behaves exactly like step 1, with no error. -/
theorem C10_step_le_one_no_subsampling (w h : Int) (s : ℚ) (pts : List (Int × Int))
    (rev : Bool) (step : Int) (hst : step ≤ 1) :
    subsample step pts = pts ∧
    add_bezier_spline w h s pts rev step = add_bezier_spline w h s pts rev 1 :=
  ⟨subsample_of_step_le_one step pts hst,
   add_bezier_spline_step_le_one w h s pts rev step hst⟩

/-- C10 witness: step -2 on a concrete point list keeps all points and
matches step 1. -/
theorem C10_witness :
    (-2 : Int) ≤ 1 ∧
    (subsample (-2) [((3:Int),(3:Int)),(3,6),(6,6)] = [((3:Int),(3:Int)),(3,6),(6,6)] ∧
     add_bezier_spline 10 10 2 [((3:Int),(3:Int)),(3,6),(6,6)] false (-2) =
       add_bezier_spline 10 10 2 [((3:Int),(3:Int)),(3,6),(6,6)] false 1) :=
  ⟨by decide, C10_step_le_one_no_subsampling 10 10 2 [(3,3),(3,6),(6,6)] false (-2) (by decide)⟩

/-- C2 witness: at the concrete Scenario A contour the border predicate of
the spec holds for some point, obtained through the iff at margin 2. -/
theorem C2_witness :
    touches_border contourA 10 10 2 = true ∧
    ∃ p ∈ contourA.points, p.1 ≤ 2 ∨ p.2 ≤ 2 ∨ p.1 ≥ 10 - 2 ∨ p.2 ≥ 10 - 2 :=
  ⟨by decide, (C2_touches_border_iff.1 contourA 10 10 2).mp (by decide)⟩

/-- C3 counterexample: at step 2 on six concrete points the reversed
curve's point order is not the reverse of the subsampled non-reversed
curve's point order — the code reverses before subsampling, so the two
curves sample different pixels of the contour. -/
theorem C3_counterexample :
    add_bezier_spline 10 10 2 ptsC3 false 2 =
      .ok (some ⟨[((3:Int),(3:Int)),(3,5),(5,5)].map (pointWorld 10 10 2), true⟩) ∧
    add_bezier_spline 10 10 2 ptsC3 true 2 =
      .ok (some ⟨[((5:Int),(4:Int)),(4,5),(3,4)].map (pointWorld 10 10 2), true⟩) ∧
    [((5:Int),(4:Int)),(4,5),(3,4)].map (pointWorld 10 10 2) ≠
      ([((3:Int),(3:Int)),(3,5),(5,5)].map (pointWorld 10 10 2)).reverse := by
  refine ⟨rfl, rfl, ?_⟩
  simp [pointWorld]
  intro h
  norm_num at h

/-- C3 (amended): reversal is applied to the original point order before
subsampling — building with reverse true equals building the reversed list
with reverse false — and when no subsampling happens (step at most 1) the
reversed curve's point order is the exact reverse of the non-reversed
curve's point order. -/
theorem C3_reverse_before_subsample (w h : Int) (s : ℚ) (pts : List (Int × Int))
    (step : Int) :
    add_bezier_spline w h s pts true step = add_bezier_spline w h s pts.reverse false step ∧
    (step ≤ 1 → ∀ spl spl' : Spline,
      add_bezier_spline w h s pts false step = .ok (some spl) →
      add_bezier_spline w h s pts true step = .ok (some spl') →
      spl'.points = spl.points.reverse) := by
  constructor
  · rfl
  · intro hst spl spl' hf hr
    obtain ⟨hlen, hpts, hcyc⟩ := add_bezier_spline_ok_some_inv w h s pts false step spl hf
    obtain ⟨hlen', hpts', hcyc'⟩ := add_bezier_spline_ok_some_inv w h s pts true step spl' hr
    rw [hpts, hpts']
    simp only [if_true, if_false, Bool.false_eq_true, ite_false, ite_true,
      subsample_of_step_le_one step pts hst,
      subsample_of_step_le_one step pts.reverse hst, List.map_reverse]

/-- C3 witness: at step 1 on a concrete triangle the winding-inversion
relation of the amended claim holds. -/
theorem C3_witness :
    (1 : Int) ≤ 1 ∧
    add_bezier_spline 10 10 2 [((3:Int),(3:Int)),(3,6),(6,6)] false 1 =
      .ok (some ⟨[((3:Int),(3:Int)),(3,6),(6,6)].map (pointWorld 10 10 2), true⟩) ∧
    add_bezier_spline 10 10 2 [((3:Int),(3:Int)),(3,6),(6,6)] true 1 =
      .ok (some ⟨[((6:Int),(6:Int)),(3,6),(3,3)].map (pointWorld 10 10 2), true⟩) ∧
    [((6:Int),(6:Int)),(3,6),(3,3)].map (pointWorld 10 10 2) =
      ([((3:Int),(3:Int)),(3,6),(6,6)].map (pointWorld 10 10 2)).reverse :=
  ⟨by decide, rfl, rfl,
    (C3_reverse_before_subsample 10 10 2 [(3,3),(3,6),(6,6)] 1).2 (by decide)
      ⟨[((3:Int),(3:Int)),(3,6),(6,6)].map (pointWorld 10 10 2), true⟩
      ⟨[((6:Int),(6:Int)),(3,6),(3,3)].map (pointWorld 10 10 2), true⟩ rfl rfl⟩

/-- C4 counterexample: on an input whose contour 0 declares the
out-of-range parent 7 (only indices 0 and 1 exist), the build neither
fails nor aborts: it completes and emits a curve for the well-formed
top-level contour. -/
theorem C4_counterexample :
    (csBadParent.contours.getD 0 defaultContour).parent = 7 ∧
    csBadParent.contours.length = 2 ∧
    build_model_from_contours csBadParent 2 1 ≠ .error () ∧
    build_model_from_contours csBadParent 2 1 ≠ .ok [] :=
  ⟨by decide, by decide, by decide, by decide⟩

/-- C4 (amended): the code performs no hierarchy validation at all: for
every contour set — out-of-range parents, cyclic parent relations and
deeper nesting included — processing terminates without raising any
condition, provided only that the image is not one pixel wide or tall
(the sole failure the code can produce is the normalization
division-by-zero). Malformed parents are silently ignored. -/
theorem C4_no_hierarchy_validation (cs : ContourSet) (s : ℚ) (step : Int)
    (hw : cs.width ≠ 1) (hh : cs.height ≠ 1) :
    build_model_from_contours cs s step ≠ .error () :=
  build_ne_error cs s step (by omega) (by omega)

/-- C4 witness: the malformed-parent input runs to completion. -/
theorem C4_witness :
    csBadParent.width ≠ 1 ∧ csBadParent.height ≠ 1 ∧
    build_model_from_contours csBadParent 2 1 ≠ .error () :=
  ⟨by decide, by decide, C4_no_hierarchy_validation csBadParent 2 1 (by decide) (by decide)⟩

/-- C5 counterexample: with scale -1 (not positive) and step 0 (not
positive) the core performs no precondition check: processing runs and
produces a non-empty curve group instead of rejecting the input. -/
theorem C5_counterexample :
    ((-1 : ℚ) ≤ 0 ∧ (0 : Int) ≤ 0) ∧
    build_model_from_contours csInterior (-1) 0 ≠ .error () ∧
    build_model_from_contours csInterior (-1) 0 ≠ .ok [] :=
  ⟨⟨by decide, by decide⟩, by decide, by decide⟩

/-- C5 (amended): the code validates no configuration: non-positive scale
and step are processed normally (any step at most 1 acts as step 1), and
the build completes whenever the image is not one pixel wide or tall;
width 1 or height 1 is not rejected up front either — it surfaces only as
a division-by-zero when a surviving curve is normalized. -/
theorem C5_no_config_validation (cs : ContourSet) (s : ℚ) (step : Int)
    (_hs : s ≤ 0) (hstep : step ≤ 0) (hw : cs.width ≠ 1) (hh : cs.height ≠ 1) :
    build_model_from_contours cs s step ≠ .error () ∧
    build_model_from_contours cs s step = build_model_from_contours cs s 1 :=
  ⟨build_ne_error cs s step (by omega) (by omega),
   build_step_le_one cs s step (by omega)⟩

/-- C5 witness: scale -1 and step 0 on a concrete valid set complete and
match the step-1 run. -/
theorem C5_witness :
    ((-1 : ℚ) ≤ 0 ∧ (0 : Int) ≤ 0 ∧ csInterior.width ≠ 1 ∧ csInterior.height ≠ 1) ∧
    build_model_from_contours csInterior (-1) 0 ≠ .error () ∧
    build_model_from_contours csInterior (-1) 0 = build_model_from_contours csInterior (-1) 1 :=
  ⟨⟨by decide, by decide, by decide, by decide⟩,
    C5_no_config_validation csInterior (-1) 0 (by decide) (by decide) (by decide) (by decide)⟩

/-- C6: on images wider and taller than one pixel, every point (x, y) of
an emitted curve is mapped to world coordinates by exactly
u = x/(width-1), v = y/(height-1), xw = (u - 1/2)*scale,
yw = (1/2 - v)*scale, with no clamping; and at width = height = 10 the
point (3,3) maps to ((3/9 - 1/2)*scale, (1/2 - 3/9)*scale). -/
theorem C6_world_mapping (w h : Int) (s : ℚ) (pts : List (Int × Int))
    (rev : Bool) (step : Int) :
    (1 < w → 1 < h →
      3 ≤ (subsample step (if rev then pts.reverse else pts)).length →
      add_bezier_spline w h s pts rev step =
        .ok (some ⟨(subsample step (if rev then pts.reverse else pts)).map
          (fun p => (((p.1 : ℚ) / ((w : ℚ) - 1) - 1/2) * s,
                     (1/2 - (p.2 : ℚ) / ((h : ℚ) - 1)) * s)), true⟩)) ∧
    pointWorld 10 10 s (3, 3) = (((3 : ℚ)/9 - 1/2) * s, (1/2 - (3 : ℚ)/9) * s) := by
  constructor
  · intro hw hh hlen
    rw [add_bezier_spline_ok w h s pts rev step (by omega) (by omega) hlen]
    have hfun : pointWorld w h s = fun p : Int × Int =>
        (((p.1 : ℚ) / ((w : ℚ) - 1) - 1/2) * s,
         (1/2 - (p.2 : ℚ) / ((h : ℚ) - 1)) * s) := by
      funext p
      simp only [pointWorld, Prod.mk.injEq]
      constructor <;> push_cast <;> ring
    rw [hfun]
  · simp only [pointWorld, Prod.mk.injEq]
    constructor <;> norm_num

/-- C6 witness: a concrete interior triangle at width = height = 10,
scale 2, step 1 is emitted with exactly the normalized coordinates of the
stated formulas. -/
theorem C6_witness :
    ((1 : Int) < 10 ∧
      3 ≤ (subsample 1 (if false then ([((3:Int),(3:Int)),(3,6),(6,6)] :
        List (Int × Int)).reverse else [((3:Int),(3:Int)),(3,6),(6,6)])).length) ∧
    add_bezier_spline 10 10 2 [((3:Int),(3:Int)),(3,6),(6,6)] false 1 =
      .ok (some ⟨(subsample 1 (if false then ([((3:Int),(3:Int)),(3,6),(6,6)] :
          List (Int × Int)).reverse else [((3:Int),(3:Int)),(3,6),(6,6)])).map
        (fun p => (((p.1 : ℚ) / ((10 : ℚ) - 1) - 1/2) * 2,
                   (1/2 - (p.2 : ℚ) / ((10 : ℚ) - 1)) * 2)), true⟩) :=
  ⟨⟨by decide, by decide⟩,
    (C6_world_mapping 10 10 2 [(3,3),(3,6),(6,6)] false 1).1
      (by decide) (by decide) (by decide)⟩

/-- C7: if fewer than 3 points remain after subsampling, the Curve Builder
produces no curve and raises no error; consequently every curve it does
produce has at least 3 points; in particular a 5-point contour with step 3
yields no curve. -/
theorem C7_degenerate_dropped (w h : Int) (s : ℚ) (pts : List (Int × Int))
    (rev : Bool) (step : Int) :
    ((subsample step (if rev then pts.reverse else pts)).length < 3 →
      add_bezier_spline w h s pts rev step = .ok none) ∧
    (∀ spl : Spline, add_bezier_spline w h s pts rev step = .ok (some spl) →
      3 ≤ spl.points.length) ∧
    add_bezier_spline 10 10 2 [((3:Int),(3:Int)),(4,4),(5,5),(6,6),(7,7)] false 3 =
      .ok none := by
  refine ⟨fun hlen => add_bezier_spline_short w h s pts rev step hlen, ?_, by decide⟩
  intro spl hadd
  obtain ⟨hlen, hpts, hcyc⟩ := add_bezier_spline_ok_some_inv w h s pts rev step spl hadd
  rw [hpts, List.length_map]
  exact hlen

/-- C7 witness: a 2-point contour is silently dropped, and a concrete
emitted triangle has at least 3 points. -/
theorem C7_witness :
    ((subsample 1 (if false then ([((3:Int),(3:Int)),(4,4)] :
        List (Int × Int)).reverse else [((3:Int),(3:Int)),(4,4)])).length < 3 ∧
      add_bezier_spline 10 10 2 [((3:Int),(3:Int)),(4,4)] false 1 = .ok none) ∧
    (add_bezier_spline 10 10 2 [((3:Int),(3:Int)),(3,6),(6,6)] false 1 =
        .ok (some ⟨[((3:Int),(3:Int)),(3,6),(6,6)].map (pointWorld 10 10 2), true⟩) ∧
      3 ≤ ([((3:Int),(3:Int)),(3,6),(6,6)].map (pointWorld 10 10 2)).length) :=
  ⟨⟨by decide, (C7_degenerate_dropped 10 10 2 [(3,3),(4,4)] false 1).1 (by decide)⟩,
   ⟨rfl, (C7_degenerate_dropped 10 10 2 [(3,3),(3,6),(6,6)] false 1).2.1
      ⟨[((3:Int),(3:Int)),(3,6),(6,6)].map (pointWorld 10 10 2), true⟩ rfl⟩⟩
